import Mathlib

/-!
A shallow embedding of the device-enumeration module `ffmpegio/devices.py` of
the python-ffmpegio repository, together with theorems settling the frozen
claims about it.

Modelling conventions:
* Python strings are `String` / `List Char` (the probe text is a `List Char`
  so that slicing by integer spans is direct).
* Python dicts are insertion-ordered association lists (`dictInsert` updates
  an existing key in place, else appends, exactly like CPython dicts).
* A value stored in a device listing is either a string or a parsed device
  record (`Value`), because `resolve_source` can return either.
* Fallible code returns `Except PyErr`; a bare Python `except:` is modelled by
  matching on the `Except` result.
* The two `re.finditer` calls are embedded as explicit backtracking matchers
  for the exact patterns in the source (`Auto-detected {dev_type} for (.+?):\n`
  and `([ *]) (.+?) \[(.+?)\] \((.+?)\)\n`): a lazy `(.+?)` group is the list
  of all candidate splits in increasing length order, and the matcher takes
  the first candidate under which the rest of the pattern succeeds.
-/

namespace FFDev

/-- Python exceptions that the module can raise or swallow. -/
inductive PyErr where
  | valueError (msg : String)
  | keyError
  | indexError
  | typeError
deriving DecidableEq, Repr

/-- One enumerated device, as built by `scan.get_devices.parse`
(`{"name": m[2], "description": m[3], "is_default": m[1] == "*" or None,
  "media_type": media_type}`).  `is_default` is `some true` for Python `True`,
`none` for Python `None`, `some false` for Python `False` (which the code in
fact never produces). -/
structure DeviceRecord where
  name : String
  description : String
  is_default : Option Bool
  media_type : String
deriving DecidableEq, Repr

/-- A Python value that can appear as a url or inside a family's `list`
mapping: either a string or a parsed device-record dict. -/
inductive Value where
  | str (s : String)
  | record (r : DeviceRecord)
deriving DecidableEq, Repr

/-- A family's `list` mapping: Spec key (e.g. `"v:0"`) to value. -/
abbrev DevList := List (String × Value)

/-- A device-family dict (a plugin api dict, possibly with a `"list"` entry
added by `scan`).  Absent capability keys are `none`. -/
structure Family where
  list : Option DevList := none
  scan : Option (Unit → DevList) := none
  resolve : Option (String → Value → Except PyErr Value) := none
  list_options : Option (String → String → Except PyErr Value) := none

/-- A top-level index (`SOURCES` / `SINKS`): family name to family dict. -/
abbrev Index := List (String × Family)

/-- Python dict lookup `d[k]` (first matching key). -/
def dictGet (d : List (String × α)) (k : String) : Option α :=
  match d with
  | [] => none
  | (k1, v) :: rest => if k1 = k then some v else dictGet rest k

/-- Python dict assignment `d[k] = v`: update in place if present, else
append (CPython insertion-order semantics). -/
def dictInsert (d : List (String × α)) (k : String) (v : α) : List (String × α) :=
  match d with
  | [] => [(k, v)]
  | (k1, v1) :: rest => if k1 = k then (k, v) :: rest else (k1, v1) :: dictInsert rest k v

/-- Python `s.split(",")` on character lists; `"".split(",") == [""]`. -/
def splitOnComma : List Char → List (List Char)
  | [] => [[]]
  | c :: rest =>
    if c = ',' then [] :: splitOnComma rest
    else
      match splitOnComma rest with
      | g :: gs => (c :: g) :: gs
      | [] => [[c]]

/-- All ways to match the lazy regex fragment `(.+?)L` at the head of a
string: pairs `(g, r)` with `s = g ++ L ++ r`, `g` nonempty and free of
newlines, ordered by increasing `g.length` (the order a lazy quantifier
tries them in when backtracking). -/
def lazySplits (L : List Char) : List Char → List (List Char × List Char)
  | [] => []
  | c :: rest =>
    if c = '\n' then []
    else
      (if L.isPrefixOf rest then [([c], rest.drop L.length)] else []) ++
        (lazySplits L rest).map (fun p => (c :: p.1, p.2))

/-- Try a function on each element in order, returning the first success
(the backtracking search over one lazy group's candidates). -/
def firstSome (l : List α) (f : α → Option β) : Option β :=
  match l with
  | [] => none
  | a :: rest =>
    match f a with
    | some b => some b
    | none => firstSome rest f

/-- The literal part of the header pattern `Auto-detected {dev_type} for `. -/
def headerPre (dt : String) : List Char := ("Auto-detected " ++ dt ++ " for ").data

/-- Match the header regex `Auto-detected {dev_type} for (.+?):\n` at the
start of `s`: on success return the group (the alias csv) and the length of
the whole match. -/
def headerAt (pre : List Char) (s : List Char) : Option (List Char × Nat) :=
  if pre.isPrefixOf s then
    match lazySplits [':', '\n'] (s.drop pre.length) with
    | [] => none
    | p :: _ => some (p.1, pre.length + p.1.length + 2)
  else none

/-- `re.finditer` for the header pattern, with spans.  Scans left to right;
after a match of length `len` the search resumes at the match end (`len - 1`
characters of the tail are skipped).  Produces `(group, start, end)`. -/
def headerScan (pre : List Char) : Nat → Nat → List Char → List (List Char × Nat × Nat)
  | _, _, [] => []
  | Nat.succ k, off, _ :: rest => headerScan pre k (off + 1) rest
  | 0, off, c :: rest =>
    match headerAt pre (c :: rest) with
    | some (g, len) => (g, off, off + len) :: headerScan pre (len - 1) (off + 1) rest
    | none => headerScan pre 0 (off + 1) rest

/-- Match the device-line regex `([ *]) (.+?) \[(.+?)\] \((.+?)\)\n` at the
start of `s`.  Group 1 is the default marker, groups 2-4 are lazy; the
nested `firstSome` searches model the regex engine's backtracking order
(extend an earlier lazy group only after all continuations fail).  Returns
the four groups and the length of the whole match. -/
def devLineAt (s : List Char) : Option ((Char × List Char × List Char × List Char) × Nat) :=
  match s with
  | c1 :: ' ' :: rest =>
    if c1 = ' ' ∨ c1 = '*' then
      firstSome (lazySplits [' ', '['] rest) (fun p2 =>
        firstSome (lazySplits [']', ' ', '('] p2.2) (fun p3 =>
          match lazySplits [')', '\n'] p3.2 with
          | [] => none
          | p4 :: _ => some ((c1, p2.1, p3.1, p4.1), s.length - p4.2.length)))
    else none
  | _ => none

/-- `re.finditer` for the device-line pattern (groups only; spans unused by
the source).  Same scan/resume discipline as `headerScan`. -/
def devScan : Nat → List Char → List (Char × List Char × List Char × List Char)
  | _, [] => []
  | Nat.succ k, _ :: rest => devScan k rest
  | 0, c :: rest =>
    match devLineAt (c :: rest) with
    | some (m, len) => m :: devScan (len - 1) rest
    | none => devScan 0 rest

/-- The Spec key `f"v:{n}"`. -/
def vKey (n : Nat) : String := "v:" ++ Nat.repr n

/-- The Spec key `f"a:{n}"`. -/
def aKey (n : Nat) : String := "a:" ++ Nat.repr n

/-- One iteration of `for media_type in media_types:` in `parse`: state is
`(devices, video count, audio count)`. -/
def addMedia (nm ds : String) (isdef : Option Bool)
    (st : DevList × Nat × Nat) (mt : List Char) : DevList × Nat × Nat :=
  if mt = "video".data then
    (dictInsert st.1 (vKey st.2.1) (Value.record ⟨nm, ds, isdef, "video"⟩), st.2.1 + 1, st.2.2)
  else if mt = "audio".data then
    (dictInsert st.1 (aKey st.2.2) (Value.record ⟨nm, ds, isdef, "audio"⟩), st.2.1, st.2.2 + 1)
  else st

/-- Process one device-line match of `parse`: build `info` from the groups
(`is_default` is `m[1] == "*" or None`, i.e. `True` or `None`, never `False`)
and fold over `m[4].split(",")`. -/
def parseLine (st : DevList × Nat × Nat)
    (m : Char × List Char × List Char × List Char) : DevList × Nat × Nat :=
  (splitOnComma m.2.2.2).foldl
    (addMedia (String.mk m.2.1) (String.mk m.2.2.1) (if m.1 = '*' then some true else none)) st

/-- The literal `f"Cannot list {dev_type}"`. -/
def cannotPre (dt : String) : List Char := ("Cannot list " ++ dt).data

/-- `scan.get_devices.parse`: `None` (here `none`) if the listing text starts
with `Cannot list {dev_type}`, else the Spec-to-record mapping built from the
device-line matches with per-media-type counters starting at 0. -/
def parse (cannot : List Char) (log : List Char) : Option DevList :=
  if cannot.isPrefixOf log then none
  else some (((devScan 0 log).foldl parseLine ([], 0, 0)).1)

/-- Python slice `t[i0:i1]`. -/
def slice (t : List Char) (i0 i1 : Nat) : List Char := (t.drop i0).take (i1 - i0)

/-- The span-fixup loop of `get_devices`: for every entry but the last,
start becomes the old end and end becomes the next entry's (original) start;
the last entry's start becomes its old end and its end becomes `total`. -/
def fixLoop (total : Nat) : List (List Char × Nat × Nat) → List (List Char × Nat × Nat)
  | [] => []
  | [m] => [(m.1, m.2.2, total)]
  | m :: m2 :: rest => (m.1, m.2.2, m2.2.1) :: fixLoop total (m2 :: rest)

/-- The span fixup including the `src_spans[-1]` accesses, which raise
`IndexError` when the match list is empty. -/
def fixSpans (total : Nat) (ms : List (List Char × Nat × Nat)) :
    Except PyErr (List (List Char × Nat × Nat)) :=
  match ms with
  | [] => Except.error PyErr.indexError
  | _ => Except.ok (fixLoop total ms)

/-- The `src_spans` value of `get_devices` after the fixup loop. -/
def get_spans (dt : String) (t : List Char) : Except PyErr (List (List Char × Nat × Nat)) :=
  fixSpans t.length (headerScan (headerPre dt) 0 0 t)

/-- `scan.get_devices` as a function of the probe text: one
`(aliasCsv, parsedListing)` pair per fixed span. -/
def get_devices (dt : String) (t : List Char) :
    Except PyErr (List (List Char × Option DevList)) :=
  match get_spans dt t with
  | Except.error e => Except.error e
  | Except.ok spans =>
    Except.ok (spans.map (fun sp => (sp.1, parse (cannotPre dt) (slice t sp.2.1 sp.2.2))))

/-- Build the `plugin_devices` dict from the hook's `(name, api)` pairs. -/
def dictOfPairs (ps : List (String × Family)) : Index :=
  ps.foldl (fun d p => dictInsert d p.1 p.2) []

/-- `for name in names: devs[name] = info`. -/
def insertAll (devs : Index) (names : List (List Char)) (info : Family) : Index :=
  names.foldl (fun d n => dictInsert d (String.mk n) info) devs

/-- `names[0]` of the comma-split alias list (the split is never empty). -/
def firstAliasStr (key : List Char) : String :=
  String.mk ((splitOnComma key).headD [])

/-- One iteration of the loop in `scan.gather_device_info`.  The state also
carries an instrumentation log of the base names whose plugin `scan`
capability was invoked, in invocation order (the call happens at exactly one
place in the source, `info["list"] = info["scan"]()`). -/
def gather_step (plugin_devices : Index) (st : Index × List String)
    (entry : List Char × Option DevList) : Index × List String :=
  let names := splitOnComma entry.1
  let name := String.mk (names.headD [])
  match dictGet plugin_devices name with
  | some info =>
    match entry.2 with
    | some dl => (insertAll st.1 names { info with list := some dl }, st.2)
    | none =>
      match info.scan with
      | some f => (insertAll st.1 names { info with list := some (f ()) }, st.2 ++ [name])
      | none => (insertAll st.1 names info, st.2)
  | none =>
    match entry.2 with
    | some dl => if dl = [] then st else (insertAll st.1 names { list := some dl }, st.2)
    | none => st

/-- The loop of `gather_device_info` over all parsed `(key, devlist)` pairs. -/
def gatherFold (plugin_devices : Index) (init : Index × List String)
    (parsed : List (List Char × Option DevList)) : Index × List String :=
  parsed.foldl (gather_step plugin_devices) init

/-- `scan.gather_device_info`, from the hook pairs and the parsed listings
(second component: the plugin-scan invocation log). -/
def gather_device_info (plugin_pairs : List (String × Family))
    (parsed : List (List Char × Option DevList)) : Index × List String :=
  gatherFold (dictOfPairs plugin_pairs) ([], []) parsed

/-- `scan()` as a function of the two hook pair lists and the two probe
texts; returns the new `SOURCES` and `SINKS` (each with its scan log). -/
def scan (source_api sink_api : List (String × Family))
    (sources_text sinks_text : List Char) :
    Except PyErr ((Index × List String) × (Index × List String)) :=
  match get_devices "sources" sources_text with
  | Except.error e => Except.error e
  | Except.ok src =>
    match get_devices "sinks" sinks_text with
    | Except.error e => Except.error e
    | Except.ok snk =>
      Except.ok (gather_device_info source_api src, gather_device_info sink_api snk)

/-- `_list_devices`: family names whose `list` has a key with the given
media-type letter as a start. -/
def _list_devices (devs : Index) (mtype : String) : List String :=
  devs.filterMap (fun p =>
    match p.2.list with
    | some l => if l.any (fun kv => mtype.isPrefixOf kv.1) then some p.1 else none
    | none => none)

/-- `list_video_sources`. -/
def list_video_sources (SOURCES : Index) : List String := _list_devices SOURCES "v"

/-- `list_audio_sources`. -/
def list_audio_sources (SOURCES : Index) : List String := _list_devices SOURCES "a"

/-- `list_video_sinks`. -/
def list_video_sinks (SINKS : Index) : List String := _list_devices SINKS "v"

/-- `list_audio_sinks`. -/
def list_audio_sinks (SINKS : Index) : List String := _list_devices SINKS "a"

/-- `devices = dev_type and {"source": SOURCES, "sink": SINKS}[dev_type]`
with its surrounding `try/except`: `None` and `""` are falsy so short-circuit
to a falsy `devices` (`ok none`); a `KeyError` on any other string becomes
the `Unknown dev_type` `ValueError`. -/
def pickIndex (SOURCES SINKS : Index) : Option String → Except PyErr (Option Index)
  | none => Except.ok none
  | some dt =>
    if dt = "" then Except.ok none
    else if dt = "source" then Except.ok (some SOURCES)
    else if dt = "sink" then Except.ok (some SINKS)
    else Except.error (PyErr.valueError ("Unknown dev_type: " ++ dt ++ " (must be source or sink)"))

/-- `_get_dev`: `if devices:` is true only for a nonempty dict; otherwise the
fallback tries `SOURCES[device]` then `SINKS[device]`; any lookup failure
becomes the `Unknown/unenumerated device` `ValueError`. -/
def _get_dev (SOURCES SINKS : Index) (device : String) (dev_type : Option String) :
    Except PyErr Family :=
  match pickIndex SOURCES SINKS dev_type with
  | Except.error e => Except.error e
  | Except.ok devices =>
    match devices with
    | some (h :: tl) =>
      match dictGet (h :: tl) device with
      | some info => Except.ok info
      | none => Except.error (PyErr.valueError ("Unknown/unenumerated device: " ++ device))
    | _ =>
      match dictGet SOURCES device with
      | some info => Except.ok info
      | none =>
        match dictGet SINKS device with
        | some info => Except.ok info
        | none => Except.error (PyErr.valueError ("Unknown/unenumerated device: " ++ device))

/-- `list_hardware`: `_get_dev(device, dev_type)["list"]`; a missing `"list"`
key raises `KeyError` (uncaught in the source). -/
def list_hardware (SOURCES SINKS : Index) (device : String) (dev_type : Option String) :
    Except PyErr DevList :=
  match _get_dev SOURCES SINKS device dev_type with
  | Except.error e => Except.error e
  | Except.ok info =>
    match info.list with
    | some l => Except.ok l
    | none => Except.error PyErr.keyError

/-- `list_source_options`. -/
def list_source_options (SOURCES SINKS : Index) (device enum : String) :
    Except PyErr Value :=
  match _get_dev SOURCES SINKS device (some "source") with
  | Except.error e => Except.error e
  | Except.ok info =>
    match info.list_options with
    | some f => f "source" enum
    | none => Except.error (PyErr.valueError "No options to list")

/-- `list_sink_options`. -/
def list_sink_options (SOURCES SINKS : Index) (device enum : String) :
    Except PyErr Value :=
  match _get_dev SOURCES SINKS device (some "sink") with
  | Except.error e => Except.error e
  | Except.ok info =>
    match info.list_options with
    | some f => f "sink" enum
    | none => Except.error (PyErr.valueError "No options to list")

/-- The `try: url = dev["list"][url] finally: return url, opts` tail of the
resolvers: a missing `"list"` key, a non-string (unhashable) url, or a missed
lookup is swallowed by the `return` in `finally` and leaves `url` unchanged. -/
def listFallback (dev : Family) (url : Value) : Value :=
  match dev.list with
  | none => url
  | some l =>
    match url with
    | Value.str s =>
      match dictGet l s with
      | some v => v
      | none => url
    | Value.record _ => url

/-- `resolve_source`.  The first `try/except` swallows a missing `"f"` key, a
non-string (unhashable) `opts["f"]` and an unknown family (the stored
families are never `None`, so the `assert` cannot fire).  The second bare
`except:` catches both a missing `"resolve"` key and any error raised by the
capability itself, falling back to the list lookup. -/
def resolve_source (SOURCES : Index) (url : Value) (opts : List (String × Value)) :
    Except PyErr (Value × List (String × Value)) :=
  match dictGet opts "f" with
  | none => Except.ok (url, opts)
  | some (Value.record _) => Except.ok (url, opts)
  | some (Value.str f) =>
    match dictGet SOURCES f with
    | none => Except.ok (url, opts)
    | some dev =>
      match dev.resolve with
      | some r =>
        match r "source" url with
        | Except.ok u => Except.ok (u, opts)
        | Except.error _ => Except.ok (listFallback dev url, opts)
      | none => Except.ok (listFallback dev url, opts)

/-- `resolve_sink` (identical to `resolve_source` with `SINKS` and role
`"sink"`). -/
def resolve_sink (SINKS : Index) (url : Value) (opts : List (String × Value)) :
    Except PyErr (Value × List (String × Value)) :=
  match dictGet opts "f" with
  | none => Except.ok (url, opts)
  | some (Value.record _) => Except.ok (url, opts)
  | some (Value.str f) =>
    match dictGet SINKS f with
    | none => Except.ok (url, opts)
    | some dev =>
      match dev.resolve with
      | some r =>
        match r "sink" url with
        | Except.ok u => Except.ok (u, opts)
        | Except.error _ => Except.ok (listFallback dev url, opts)
      | none => Except.ok (listFallback dev url, opts)

/-! Predicates and concrete instances used by the claim theorems. -/

/-- The "list lookup of the url fails" condition of the resolver fallback:
no `"list"` key, an unhashable (non-string) url, or a missed key lookup. -/
def listLookupFails (dev : Family) (url : Value) : Prop :=
  match dev.list, url with
  | none, _ => True
  | some _, Value.record _ => True
  | some l, Value.str s => dictGet l s = none

/-- An entry of a listing produced by `parse`: the value is a device-record
dict whose `is_default` is never Python `False`, and whose Spec key has the
media-type letter matching the record's `media_type`. -/
def GoodEntry (p : String × Value) : Prop :=
  ∃ r, p.2 = Value.record r ∧ r.is_default ≠ some false ∧
    ((∃ s, p.1 = "v:" ++ s ∧ r.media_type = "video") ∨
      (∃ s, p.1 = "a:" ++ s ∧ r.media_type = "audio"))

/-- A span list is chained between `lo` and `hi`: starts are ordered after
`lo`, each span is nonempty, ends bound the next start, all within `hi`. -/
def Chained (lo hi : Nat) : List (List Char × Nat × Nat) → Prop
  | [] => True
  | m :: rest => lo ≤ m.2.1 ∧ m.2.1 < m.2.2 ∧ m.2.2 ≤ hi ∧ Chained m.2.2 hi rest

/-- The structural relation between raw header matches `ms` and the fixed
spans: listing `i` runs from header `i`'s end to header `i+1`'s start, the
last to `total`, keeping the header's group. -/
def SpanStruct (total : Nat) : List (List Char × Nat × Nat) → List (List Char × Nat × Nat) → Prop
  | [m], [f] => f.1 = m.1 ∧ f.2.1 = m.2.2 ∧ f.2.2 = total ∧ m.2.1 < m.2.2 ∧ m.2.2 ≤ total
  | m :: m2 :: ms, f :: fs =>
    f.1 = m.1 ∧ f.2.1 = m.2.2 ∧ f.2.2 = m2.2.1 ∧ m.2.1 < m.2.2 ∧ m.2.2 ≤ m2.2.1 ∧
      SpanStruct total (m2 :: ms) fs
  | _, _ => False

/-- Interleave each header's own slice with its listing slice and
concatenate (used to state what the spans jointly cover). -/
def hlJoin (t : List Char) : List (List Char × Nat × Nat) → List (List Char × Nat × Nat) → List Char
  | m :: ms, f :: fs => slice t m.2.1 m.2.2 ++ (slice t f.2.1 f.2.2 ++ hlJoin t ms fs)
  | _, _ => []

/-- The start of the first span (0 for an empty list). -/
def headStart : List (List Char × Nat × Nat) → Nat
  | [] => 0
  | m :: _ => m.2.1

/-- A backend resolve capability that always raises. -/
def brokenResolve : String → Value → Except PyErr Value :=
  fun _ _ => Except.error (PyErr.valueError "boom")

/-- A family whose resolver is broken but whose list knows `v:0`. -/
def brokenFam : Family :=
  { resolve := some brokenResolve, list := some [("v:0", Value.str "camname")] }

/-- A family whose resolver is broken and that has no list. -/
def brokenFam2 : Family := { resolve := some brokenResolve }

/-- A family with only a (nonempty) list. -/
def famC1 : Family := { list := some [] }

/-- A probe text with exactly one header followed by listing text. -/
def t3 : List Char := "Auto-detected sources for x:\nfoo\n".data

/-- A plugin family declaring only a `scan` capability. -/
def famScan7 : Family := { scan := some (fun _ => [("v:0", Value.str "HW")]) }

/-- One non-default audio device line. -/
def log9 : List Char := "  mic [Microphone] (audio)\n".data

/-- The record parsed from `log9`. -/
def rec9 : DeviceRecord := ⟨"mic", "Microphone", none, "audio"⟩

/-- The listing parsed from `log9`. -/
def l9 : DevList := [("a:0", Value.record rec9)]

/-- A family whose list was populated by the parser and that has no
resolve capability. -/
def dev10 : Family := { list := some l9 }

/-! Dictionary and alias-list lemmas. -/

theorem dictGet_dictInsert_self (d : List (String × α)) (k : String) (v : α) :
    dictGet (dictInsert d k v) k = some v := by
  induction d with
  | nil => simp [dictGet, dictInsert]
  | cons p rest ih =>
    obtain ⟨k1, v1⟩ := p
    by_cases h : k1 = k <;> simp [dictGet, dictInsert, h, ih]

theorem dictGet_dictInsert_ne (d : List (String × α)) (k1 k : String) (v : α) (h : k1 ≠ k) :
    dictGet (dictInsert d k1 v) k = dictGet d k := by
  induction d with
  | nil => simp [dictGet, dictInsert, h]
  | cons p rest ih =>
    obtain ⟨k2, v2⟩ := p
    by_cases h2 : k2 = k1
    · subst h2; simp [dictGet, dictInsert, h]
    · simp only [dictInsert, if_neg h2]
      by_cases h3 : k2 = k <;> simp [dictGet, h3, ih]

theorem mem_dictInsert (d : List (String × α)) (k : String) (v : α) (p : String × α) :
    p ∈ dictInsert d k v → p ∈ d ∨ p = (k, v) := by
  induction d with
  | nil => intro h; simp [dictInsert] at h; simp [h]
  | cons q rest ih =>
    obtain ⟨k1, v1⟩ := q
    intro h
    by_cases h1 : k1 = k
    · simp only [dictInsert, if_pos h1] at h
      rcases List.mem_cons.mp h with h | h
      · right; exact h
      · left; exact List.mem_cons_of_mem _ h
    · simp only [dictInsert, if_neg h1] at h
      rcases List.mem_cons.mp h with h | h
      · left; simp [h]
      · rcases ih h with h2 | h2
        · left; exact List.mem_cons_of_mem _ h2
        · right; exact h2

theorem dictGet_mem (d : List (String × α)) (k : String) (v : α) :
    dictGet d k = some v → (k, v) ∈ d := by
  induction d with
  | nil => intro h; simp [dictGet] at h
  | cons p rest ih =>
    obtain ⟨k1, v1⟩ := p
    intro h
    by_cases h1 : k1 = k
    · subst h1
      simp only [dictGet, if_pos rfl] at h
      injection h with h2
      subst h2
      exact List.mem_cons_self _ _
    · simp only [dictGet, if_neg h1] at h
      exact List.mem_cons_of_mem _ (ih h)

theorem dictGet_insertAll_of_self (names : List (List Char)) (d : Index) (info : Family)
    (k : String) (hk : dictGet d k = some info) :
    dictGet (insertAll d names info) k = some info := by
  induction names generalizing d with
  | nil => exact hk
  | cons n ns ih =>
    show dictGet (insertAll (dictInsert d (String.mk n) info) ns info) k = some info
    apply ih
    by_cases h : String.mk n = k
    · subst h; exact dictGet_dictInsert_self ..
    · rw [dictGet_dictInsert_ne _ _ _ _ h]; exact hk

theorem dictGet_insertAll_mem (names : List (List Char)) (d : Index) (info : Family)
    (n : List Char) (h : n ∈ names) :
    dictGet (insertAll d names info) (String.mk n) = some info := by
  induction names generalizing d with
  | nil => cases h
  | cons m ms ih =>
    show dictGet (insertAll (dictInsert d (String.mk m) info) ms info) (String.mk n) = some info
    rcases List.mem_cons.mp h with h1 | h1
    · subst h1
      exact dictGet_insertAll_of_self ms _ info _ (dictGet_dictInsert_self ..)
    · exact ih _ h1

theorem dictGet_insertAll_ne (names : List (List Char)) (d : Index) (info : Family)
    (k : String) (h : ∀ n ∈ names, String.mk n ≠ k) :
    dictGet (insertAll d names info) k = dictGet d k := by
  induction names generalizing d with
  | nil => rfl
  | cons m ms ih =>
    show dictGet (insertAll (dictInsert d (String.mk m) info) ms info) k = dictGet d k
    rw [ih _ (fun n hn => h n (List.mem_cons_of_mem _ hn)),
      dictGet_dictInsert_ne _ _ _ _ (h m (List.mem_cons_self _ _))]

theorem splitOnComma_ne_nil (l : List Char) : splitOnComma l ≠ [] := by
  cases l with
  | nil => simp [splitOnComma]
  | cons c rest =>
    simp only [splitOnComma]
    split
    · simp
    · split <;> simp

theorem headD_mem_splitOnComma (l : List Char) :
    (splitOnComma l).headD [] ∈ splitOnComma l := by
  cases h : splitOnComma l with
  | nil => exact absurd h (splitOnComma_ne_nil l)
  | cons g gs => simp

/-- Folding a step function that preserves a predicate on the state
(hypothesis restricted to the elements actually folded over). -/
theorem foldl_preserve {β γ : Type} {P : β → Prop} (f : β → γ → β) (l : List γ)
    (hstep : ∀ st, ∀ x ∈ l, P st → P (f st x)) :
    ∀ init, P init → P (l.foldl f init) := by
  induction l with
  | nil => intro init h; exact h
  | cons x xs ih =>
    intro init h
    exact ih (fun st y hy => hstep st y (List.mem_cons_of_mem _ hy)) _
      (hstep init x (List.mem_cons_self _ _) h)

theorem listFallback_of_fails (dev : Family) (url : Value) (h : listLookupFails dev url) :
    listFallback dev url = url := by
  unfold listLookupFails at h
  unfold listFallback
  rcases hl : dev.list with _ | l
  · rfl
  · rcases url with s | r
    · rw [hl] at h
      simp only [hl]
      rw [h]
    · simp [hl]

theorem vKey_ne_aKey (n m : Nat) : vKey n ≠ aKey m := by
  intro h
  have h2 : (vKey n).data.head? = (aKey m).data.head? := by rw [h]
  have h3 : some 'v' = some 'a' := h2
  exact absurd (Option.some.inj h3) (by decide)

/-! Claim C1. -/

/-- Claim C1: for every url and options dict, `resolve_source` and
`resolve_sink` never fail: they always return `ok`; and when the options
have no `"f"` key, or `opts["f"]` names no family in the index, or the
family's resolve capability and the list lookup of the url both fail, the
result is `(url, opts)` unchanged. -/
theorem C1_resolve_never_fails :
    (∀ (S : Index) (url : Value) (opts : List (String × Value)),
      ∃ p, resolve_source S url opts = Except.ok p) ∧
    (∀ (S : Index) (url : Value) (opts : List (String × Value)),
      ∃ p, resolve_sink S url opts = Except.ok p) ∧
    (∀ (S : Index) (url : Value) (opts : List (String × Value)),
      dictGet opts "f" = none →
      resolve_source S url opts = Except.ok (url, opts) ∧
      resolve_sink S url opts = Except.ok (url, opts)) ∧
    (∀ (S : Index) (url : Value) (opts : List (String × Value)) (f : String),
      dictGet opts "f" = some (Value.str f) → dictGet S f = none →
      resolve_source S url opts = Except.ok (url, opts) ∧
      resolve_sink S url opts = Except.ok (url, opts)) ∧
    (∀ (S : Index) (url : Value) (opts : List (String × Value)) (f : String) (dev : Family),
      dictGet opts "f" = some (Value.str f) → dictGet S f = some dev →
      (dev.resolve = none ∨ ∃ r e, dev.resolve = some r ∧ r "source" url = Except.error e) →
      listLookupFails dev url →
      resolve_source S url opts = Except.ok (url, opts)) ∧
    (∀ (S : Index) (url : Value) (opts : List (String × Value)) (f : String) (dev : Family),
      dictGet opts "f" = some (Value.str f) → dictGet S f = some dev →
      (dev.resolve = none ∨ ∃ r e, dev.resolve = some r ∧ r "sink" url = Except.error e) →
      listLookupFails dev url →
      resolve_sink S url opts = Except.ok (url, opts)) := by
  refine ⟨?_, ?_, ?_, ?_, ?_, ?_⟩
  · intro S url opts
    simp only [resolve_source]
    split
    · exact ⟨_, rfl⟩
    · exact ⟨_, rfl⟩
    · split
      · exact ⟨_, rfl⟩
      · split
        · split
          · exact ⟨_, rfl⟩
          · exact ⟨_, rfl⟩
        · exact ⟨_, rfl⟩
  · intro S url opts
    simp only [resolve_sink]
    split
    · exact ⟨_, rfl⟩
    · exact ⟨_, rfl⟩
    · split
      · exact ⟨_, rfl⟩
      · split
        · split
          · exact ⟨_, rfl⟩
          · exact ⟨_, rfl⟩
        · exact ⟨_, rfl⟩
  · intro S url opts hf
    constructor <;> simp [resolve_source, resolve_sink, hf]
  · intro S url opts f hf hS
    constructor <;> simp [resolve_source, resolve_sink, hf, hS]
  · intro S url opts f dev hf hS hres hl
    rcases hres with hres | ⟨r, e, hr, he⟩
    · simp [resolve_source, hf, hS, hres, listFallback_of_fails dev url hl]
    · simp [resolve_source, hf, hS, hr, he, listFallback_of_fails dev url hl]
  · intro S url opts f dev hf hS hres hl
    rcases hres with hres | ⟨r, e, hr, he⟩
    · simp [resolve_sink, hf, hS, hres, listFallback_of_fails dev url hl]
    · simp [resolve_sink, hf, hS, hr, he, listFallback_of_fails dev url hl]

/-- Witness for C1: a family whose list misses the spec and that has no
resolve capability leaves the url and options untouched. -/
theorem C1_resolve_never_fails_witness :
    resolve_source [("cam", famC1)] (Value.str "v:9") [("f", Value.str "cam")] =
      Except.ok (Value.str "v:9", [("f", Value.str "cam")]) :=
  C1_resolve_never_fails.2.2.2.2.1 [("cam", famC1)] (Value.str "v:9")
    [("f", Value.str "cam")] "cam" famC1 rfl rfl (Or.inl rfl) rfl

/-! Claim C2. -/

/-- Claim C2 counterexample: a family whose resolve capability raises.  The
error is not surfaced: `resolve_source` swallows it and silently falls back
to the static list lookup (returning `"camname"`), so the broken backend
resolver is bypassed, contradicting the claim. -/
theorem C2_counterexample :
    brokenFam.resolve = some brokenResolve ∧
    brokenResolve "source" (Value.str "v:0") = Except.error (PyErr.valueError "boom") ∧
    resolve_source [("cam", brokenFam)] (Value.str "v:0") [("f", Value.str "cam")] =
      Except.ok (Value.str "camname", [("f", Value.str "cam")]) ∧
    resolve_sink [("cam", brokenFam)] (Value.str "v:0") [("f", Value.str "cam")] =
      Except.ok (Value.str "camname", [("f", Value.str "cam")]) :=
  ⟨rfl, rfl, rfl, rfl⟩

/-- Claim C2 amended: an error raised by the family's resolve capability is
caught by the bare `except:`, and the resolver falls back to the static list
lookup (else passthrough); the capability's error never reaches the caller. -/
theorem C2_amended (S : Index) (url : Value) (opts : List (String × Value)) (f : String)
    (dev : Family) (r : String → Value → Except PyErr Value) (e e2 : PyErr)
    (hf : dictGet opts "f" = some (Value.str f)) (hS : dictGet S f = some dev)
    (hr : dev.resolve = some r) (hsrc : r "source" url = Except.error e)
    (hsnk : r "sink" url = Except.error e2) :
    resolve_source S url opts = Except.ok (listFallback dev url, opts) ∧
    resolve_sink S url opts = Except.ok (listFallback dev url, opts) := by
  constructor
  · simp [resolve_source, hf, hS, hr, hsrc]
  · simp [resolve_sink, hf, hS, hr, hsnk]

/-- Witness for the amended C2: with the broken resolver and no list, the
error is swallowed and the url passes through. -/
theorem C2_amended_witness :
    resolve_source [("x", brokenFam2)] (Value.str "u") [("f", Value.str "x")] =
      Except.ok (listFallback brokenFam2 (Value.str "u"), [("f", Value.str "x")]) :=
  (C2_amended [("x", brokenFam2)] (Value.str "u") [("f", Value.str "x")] "x"
    brokenFam2 brokenResolve (PyErr.valueError "boom") (PyErr.valueError "boom")
    rfl rfl rfl rfl rfl).1

/-! Lemmas about single `gather_device_info` loop iterations. -/

theorem gather_step_devs_ne (pd : Index) (st : Index × List String) (key : List Char)
    (dl : Option DevList) (name : String)
    (h : ∀ n ∈ splitOnComma key, String.mk n ≠ name) :
    dictGet (gather_step pd st (key, dl)).1 name = dictGet st.1 name := by
  simp only [gather_step]
  split
  · split
    · exact dictGet_insertAll_ne _ _ _ _ h
    · split
      · exact dictGet_insertAll_ne _ _ _ _ h
      · exact dictGet_insertAll_ne _ _ _ _ h
  · split
    · split
      · rfl
      · exact dictGet_insertAll_ne _ _ _ _ h
    · rfl

theorem gather_step_log_count (pd : Index) (st : Index × List String) (key : List Char)
    (dl : Option DevList) (name : String)
    (h : String.mk ((splitOnComma key).headD []) ≠ name) :
    ((gather_step pd st (key, dl)).2).count name = st.2.count name := by
  have h2 : ({ data := (splitOnComma key).head?.getD [] } : String) ≠ name := by
    simpa using h
  simp only [gather_step]
  split
  · split
    · rfl
    · split
      · rw [List.count_append, List.count_singleton]
        simp [h2]
      · rfl
  · split
    · split <;> rfl
    · rfl

theorem gather_step_log_not_mem (pd : Index) (st : Index × List String) (key : List Char)
    (dl : Option DevList) (name : String)
    (h : String.mk ((splitOnComma key).headD []) ≠ name) (hst : name ∉ st.2) :
    name ∉ (gather_step pd st (key, dl)).2 := by
  have h2 : ({ data := (splitOnComma key).head?.getD [] } : String) ≠ name := by
    simpa using h
  simp only [gather_step]
  split
  · split
    · exact hst
    · split
      · intro hmem
        rcases List.mem_append.mp hmem with h1 | h1
        · exact hst h1
        · exact h (List.mem_singleton.mp h1).symm
      · exact hst
  · split
    · split <;> exact hst
    · exact hst

theorem gather_step_entry (pd : Index) (st : Index × List String) (key : List Char)
    (info : Family) (f : Unit → DevList)
    (hpd : dictGet pd (String.mk ((splitOnComma key).headD [])) = some info)
    (hscan : info.scan = some f) :
    gather_step pd st (key, none) =
      (insertAll st.1 (splitOnComma key) { info with list := some (f ()) },
        st.2 ++ [String.mk ((splitOnComma key).headD [])]) := by
  simp only [gather_step, hpd, hscan]

/-! Claim C4. -/

/-- Claim C4 counterexample: a parsed family with an available listing of
zero devices and no plugin declaration is omitted from the index (the empty
dict is falsy in `{"list": devlist} if devlist else None`), contradicting
the claim that it is indexed with an empty `list`. -/
theorem C4_counterexample :
    gather_device_info [] [("fam".data, some [])] = ([], []) ∧
    dictGet (gather_device_info [] [("fam".data, some [])]).1 "fam" = none :=
  ⟨rfl, rfl⟩

/-- Claim C4 amended: for a parsed family whose first alias has no plugin
declaration: if the parsed listing is available and nonempty, the family is
indexed under every alias with `list` exactly the parsed mapping; if the
listing is unavailable or empty, the iteration leaves the index unchanged. -/
theorem C4_amended (pd : Index) (st : Index × List String) (key : List Char)
    (dl : Option DevList)
    (hpd : dictGet pd (String.mk ((splitOnComma key).headD [])) = none) :
    ((dl = none ∨ dl = some []) → gather_step pd st (key, dl) = st) ∧
    (∀ l, dl = some l → l ≠ [] →
      gather_step pd st (key, dl) =
        (insertAll st.1 (splitOnComma key) { list := some l }, st.2) ∧
      ∀ n ∈ splitOnComma key,
        dictGet (gather_step pd st (key, dl)).1 (String.mk n) = some { list := some l }) := by
  have hpd2 : dictGet pd ({ data := (splitOnComma key).head?.getD [] } : String) = none := by
    simpa using hpd
  constructor
  · intro h
    rcases h with h | h <;> subst h <;> simp [gather_step, hpd2]
  · intro l hl hne
    subst hl
    have hstep : gather_step pd st (key, some l) =
        (insertAll st.1 (splitOnComma key) { list := some l }, st.2) := by
      simp [gather_step, hpd2, hne]
    refine ⟨hstep, ?_⟩
    intro n hn
    rw [hstep]
    exact dictGet_insertAll_mem _ _ _ _ hn

/-- Witness for the amended C4: a nonempty listing is indexed under both
aliases of `"fam,alias"`. -/
theorem C4_amended_witness :
    dictGet (gather_step [] ([], []) ("fam,alias".data, some [("v:0", Value.str "c")])).1
      (String.mk "alias".data) = some { list := some [("v:0", Value.str "c")] } :=
  ((C4_amended [] ([], []) "fam,alias".data (some [("v:0", Value.str "c")]) rfl).2
    [("v:0", Value.str "c")] rfl (by decide)).2 "alias".data (by decide)

/-! Claim C5. -/

/-- Claim C5 counterexample: before any scan (`SOURCES` and `SINKS` empty),
`list_hardware` does not return an empty result: it raises
`ValueError("Unknown/unenumerated device: ...")` for any device name. -/
theorem C5_counterexample :
    list_hardware [] [] "x" none =
      Except.error (PyErr.valueError "Unknown/unenumerated device: x") :=
  rfl

/-- Claim C5 amended: before `scan()` has ever run, the four enumeration
list functions return empty lists and never raise, but `list_hardware`,
`list_source_options` and `list_sink_options` raise a `ValueError` for every
argument value. -/
theorem C5_amended :
    list_video_sources [] = [] ∧ list_audio_sources [] = [] ∧
    list_video_sinks [] = [] ∧ list_audio_sinks [] = [] ∧
    (∀ (device : String) (dev_type : Option String),
      ∃ e, list_hardware [] [] device dev_type = Except.error e) ∧
    (∀ (device enum : String), ∃ e, list_source_options [] [] device enum = Except.error e) ∧
    (∀ (device enum : String), ∃ e, list_sink_options [] [] device enum = Except.error e) := by
  refine ⟨rfl, rfl, rfl, rfl, ?_, ?_, ?_⟩
  · intro device dev_type
    rcases dev_type with _ | dt
    · exact ⟨_, rfl⟩
    · by_cases h1 : dt = ""
      · subst h1; exact ⟨_, rfl⟩
      · by_cases h2 : dt = "source"
        · subst h2; exact ⟨_, rfl⟩
        · by_cases h3 : dt = "sink"
          · subst h3; exact ⟨_, rfl⟩
          · refine ⟨PyErr.valueError ("Unknown dev_type: " ++ dt ++ " (must be source or sink)"), ?_⟩
            simp [list_hardware, _get_dev, pickIndex, h1, h2, h3]
  · intro device enum
    exact ⟨_, rfl⟩
  · intro device enum
    exact ⟨_, rfl⟩

/-! Claim C7. -/

/-- Claim C7 counterexample: a plugin declares family `"fam"` with a `scan`
capability, the probe output has no listing for it; after gathering, the
family is absent from the index and its scan capability was never invoked
(empty invocation log), contradicting the claim. -/
theorem C7_counterexample :
    gather_device_info [("fam", famScan7)] [] = ([], []) ∧
    dictGet (gather_device_info [("fam", famScan7)] []).1 "fam" = none ∧
    (gather_device_info [("fam", famScan7)] []).2 = [] :=
  ⟨rfl, rfl, rfl⟩

/-- Claim C7 amended: a family name that appears in no parsed entry's alias
list is absent from the gathered index and its plugin `scan` capability is
never invoked, whatever the plugin declarations say; the iteration only ever
indexes names that occur as aliases of parsed listings. -/
theorem C7_amended (pd : Index) (parsed : List (List Char × Option DevList)) (name : String)
    (h : ∀ e ∈ parsed, ∀ n ∈ splitOnComma e.1, String.mk n ≠ name) :
    dictGet (gatherFold pd ([], []) parsed).1 name = none ∧
    name ∉ (gatherFold pd ([], []) parsed).2 := by
  unfold gatherFold
  apply foldl_preserve
    (P := fun st : Index × List String => dictGet st.1 name = none ∧ name ∉ st.2)
  · intro st e he hst
    obtain ⟨key, dl⟩ := e
    have hall := h (key, dl) he
    constructor
    · rw [gather_step_devs_ne pd st key dl name hall]
      exact hst.1
    · refine gather_step_log_not_mem pd st key dl name ?_ hst.2
      exact hall _ (headD_mem_splitOnComma key)
  · exact ⟨rfl, List.not_mem_nil name⟩

/-- Witness for the amended C7: with one plugin family and one unrelated
parsed listing, the plugin family stays unindexed and unscanned. -/
theorem C7_amended_witness :
    dictGet (gatherFold [("fam", famScan7)] ([], [])
        [("other".data, some [("v:0", Value.str "x")])]).1 "fam" = none ∧
    "fam" ∉ (gatherFold [("fam", famScan7)] ([], [])
        [("other".data, some [("v:0", Value.str "x")])]).2 :=
  C7_amended [("fam", famScan7)] [("other".data, some [("v:0", Value.str "x")])] "fam"
    (by decide)

/-! Invariants of the listing parser. -/

theorem addMedia_good (nm ds : String) (isdef : Option Bool) (st : DevList × Nat × Nat)
    (mt : List Char) (hdef : isdef ≠ some false) (h : ∀ p ∈ st.1, GoodEntry p) :
    ∀ p ∈ (addMedia nm ds isdef st mt).1, GoodEntry p := by
  intro p hp
  unfold addMedia at hp
  by_cases h1 : mt = "video".data
  · rw [if_pos h1] at hp
    rcases mem_dictInsert _ _ _ _ hp with h2 | h2
    · exact h p h2
    · subst h2
      exact ⟨⟨nm, ds, isdef, "video"⟩, rfl, hdef, Or.inl ⟨Nat.repr st.2.1, rfl, rfl⟩⟩
  · rw [if_neg h1] at hp
    by_cases h2 : mt = "audio".data
    · rw [if_pos h2] at hp
      rcases mem_dictInsert _ _ _ _ hp with h3 | h3
      · exact h p h3
      · subst h3
        exact ⟨⟨nm, ds, isdef, "audio"⟩, rfl, hdef, Or.inr ⟨Nat.repr st.2.2, rfl, rfl⟩⟩
    · rw [if_neg h2] at hp
      exact h p hp

theorem parseLine_good (st : DevList × Nat × Nat) (m : Char × List Char × List Char × List Char)
    (h : ∀ p ∈ st.1, GoodEntry p) : ∀ p ∈ (parseLine st m).1, GoodEntry p := by
  unfold parseLine
  refine foldl_preserve (P := fun st2 : DevList × Nat × Nat => ∀ p ∈ st2.1, GoodEntry p)
    _ _ ?_ st h
  intro st2 x _ hst2
  refine addMedia_good _ _ _ st2 x ?_ hst2
  split <;> simp

theorem parse_good (cp log : List Char) (l : DevList) (h : parse cp log = some l) :
    ∀ p ∈ l, GoodEntry p := by
  unfold parse at h
  split at h
  · cases h
  · injection h with h2
    subst h2
    refine foldl_preserve (P := fun st : DevList × Nat × Nat => ∀ p ∈ st.1, GoodEntry p)
      parseLine _ ?_ ([], 0, 0) ?_
    · intro st x _ hst
      exact parseLine_good st x hst
    · intro p hp
      cases hp

/-! Claim C6. -/

/-- Claim C6: a listing whose text begins with `Cannot list {role}` parses
to the unavailable marker (`none`), which is distinct from an empty listing;
and during gathering, a family whose (sole) parsed entry is unavailable and
whose plugin declaration under the first alias has a `scan` capability has
that capability invoked exactly once, its return value becoming the family's
`list`. -/
theorem C6_cannot_list_and_scan_capability :
    (∀ (dt : String) (log : List Char), (cannotPre dt).isPrefixOf log = true →
      parse (cannotPre dt) log = none ∧ (none : Option DevList) ≠ some []) ∧
    (∀ (pd : Index) (pre post : List (List Char × Option DevList)) (key : List Char)
      (name : String) (info : Family) (f : Unit → DevList),
      name = String.mk ((splitOnComma key).headD []) →
      dictGet pd name = some info → info.scan = some f →
      (∀ e ∈ pre, String.mk ((splitOnComma e.1).headD []) ≠ name) →
      (∀ e ∈ post, ∀ n ∈ splitOnComma e.1, String.mk n ≠ name) →
      ((gatherFold pd ([], []) (pre ++ (key, none) :: post)).2).count name = 1 ∧
      dictGet (gatherFold pd ([], []) (pre ++ (key, none) :: post)).1 name =
        some { info with list := some (f ()) }) := by
  constructor
  · intro dt log h
    constructor
    · unfold parse
      rw [if_pos h]
    · intro h2
      cases h2
  · intro pd pre post key name info f hname hpd hscan hpre hpost
    have hmem := headD_mem_splitOnComma key
    -- Phase 1: folding over `pre` never logs `name`.
    have hpre2 : ((gatherFold pd ([], []) pre).2).count name = 0 := by
      unfold gatherFold
      refine foldl_preserve
        (P := fun st : Index × List String => st.2.count name = 0) _ _ ?_ _ (by simp)
      intro st e he hst
      obtain ⟨k2, dl2⟩ := e
      rw [gather_step_log_count pd st k2 dl2 name (hpre (k2, dl2) he)]
      exact hst
    -- Phase 2: the entry itself logs `name` once and stores the scanned list.
    set st1 := gatherFold pd ([], []) pre with hst1
    have hentry : gather_step pd st1 (key, none) =
        (insertAll st1.1 (splitOnComma key) { info with list := some (f ()) },
          st1.2 ++ [name]) := by
      rw [hname] at hpd ⊢
      exact gather_step_entry pd st1 key info f hpd hscan
    have hmid_count : ((gather_step pd st1 (key, none)).2).count name = 1 := by
      rw [hentry]
      rw [List.count_append, List.count_singleton]
      simp [hpre2.symm ▸ hpre2]
      omega
    have hmid_get : dictGet (gather_step pd st1 (key, none)).1 name =
        some { info with list := some (f ()) } := by
      rw [hentry, hname]
      exact dictGet_insertAll_mem _ _ _ _ hmem
    -- Phase 3: folding over `post` preserves both facts.
    have hfold : gatherFold pd ([], []) (pre ++ (key, none) :: post) =
        gatherFold pd (gather_step pd st1 (key, none)) post := by
      unfold gatherFold
      rw [List.foldl_append, List.foldl_cons]
      rfl
    rw [hfold]
    refine foldl_preserve
      (P := fun st : Index × List String =>
        st.2.count name = 1 ∧ dictGet st.1 name = some { info with list := some (f ()) })
      _ _ ?_ _ ⟨hmid_count, hmid_get⟩
    intro st e he hst
    obtain ⟨k2, dl2⟩ := e
    constructor
    · rw [gather_step_log_count pd st k2 dl2 name
        (hpost (k2, dl2) he _ (headD_mem_splitOnComma k2))]
      exact hst.1
    · rw [gather_step_devs_ne pd st k2 dl2 name (hpost (k2, dl2) he)]
      exact hst.2

/-- Witness for C6: one plugin family with a scan capability and one
unavailable parsed entry; the capability runs once and fills the list. -/
theorem C6_cannot_list_and_scan_capability_witness :
    parse (cannotPre "sources") "Cannot list sources: fail\n".data = none ∧
    ((gatherFold [("fam", famScan7)] ([], []) [("fam".data, none)]).2).count "fam" = 1 ∧
    dictGet (gatherFold [("fam", famScan7)] ([], []) [("fam".data, none)]).1 "fam" =
      some { famScan7 with list := some [("v:0", Value.str "HW")] } := by
  refine ⟨(C6_cannot_list_and_scan_capability.1 "sources"
    "Cannot list sources: fail\n".data (by decide)).1, ?_, ?_⟩
  · exact (C6_cannot_list_and_scan_capability.2 [("fam", famScan7)] [] []
      "fam".data "fam" famScan7 (fun _ => [("v:0", Value.str "HW")]) rfl rfl rfl
      (fun e he => absurd he (List.not_mem_nil e))
      (fun e he => absurd he (List.not_mem_nil e))).1
  · exact (C6_cannot_list_and_scan_capability.2 [("fam", famScan7)] [] []
      "fam".data "fam" famScan7 (fun _ => [("v:0", Value.str "HW")]) rfl rfl rfl
      (fun e he => absurd he (List.not_mem_nil e))
      (fun e he => absurd he (List.not_mem_nil e))).2

/-! Lemmas about single media-type iterations, for the counter claims. -/

theorem addMedia_other (nm ds : String) (isdef : Option Bool) (st : DevList × Nat × Nat)
    (mt : List Char) (h1 : mt ≠ "video".data) (h2 : mt ≠ "audio".data) :
    addMedia nm ds isdef st mt = st := by
  unfold addMedia
  rw [if_neg h1, if_neg h2]

theorem noMedia_foldl (nm ds : String) (isdef : Option Bool) (st : DevList × Nat × Nat)
    (xs : List (List Char)) (h : ∀ m ∈ xs, m ≠ "video".data ∧ m ≠ "audio".data) :
    xs.foldl (addMedia nm ds isdef) st = st := by
  induction xs generalizing st with
  | nil => rfl
  | cons x rest ih =>
    rw [List.foldl_cons,
      addMedia_other nm ds isdef st x (h x (List.mem_cons_self _ _)).1
        (h x (List.mem_cons_self _ _)).2]
    exact ih st (fun m hm => h m (List.mem_cons_of_mem _ hm))

theorem addMedia_video (nm ds : String) (isdef : Option Bool) (d2 : DevList) (v2 a2 : Nat) :
    addMedia nm ds isdef (d2, v2, a2) "video".data =
      (dictInsert d2 (vKey v2) (Value.record ⟨nm, ds, isdef, "video"⟩), v2 + 1, a2) := rfl

theorem addMedia_audio (nm ds : String) (isdef : Option Bool) (d2 : DevList) (v2 a2 : Nat) :
    addMedia nm ds isdef (d2, v2, a2) "audio".data =
      (dictInsert d2 (aKey a2) (Value.record ⟨nm, ds, isdef, "audio"⟩), v2, a2 + 1) := rfl

/-! Claim C8. -/

/-- Claim C8: every Spec key in a parsed listing has the media-type letter
matching its record's `media_type`; and a device line carrying both `video`
and `audio` media types yields two records, under the distinct Specs
`v:{vc}` and `a:{ac}` (the incoming per-media-type counters, which run
independently), sharing the same device name. -/
theorem C8_spec_counters :
    (∀ (cp log : List Char) (l : DevList), parse cp log = some l →
      ∀ p ∈ l, ∃ r, p.2 = Value.record r ∧
        ((∃ s, p.1 = "v:" ++ s ∧ r.media_type = "video") ∨
          (∃ s, p.1 = "a:" ++ s ∧ r.media_type = "audio"))) ∧
    (∀ (nm ds : String) (isdef : Option Bool) (d : DevList) (vc ac : Nat)
      (xs ys zs : List (List Char)) (m1 m2 : List Char),
      (∀ m ∈ xs, m ≠ "video".data ∧ m ≠ "audio".data) →
      (∀ m ∈ ys, m ≠ "video".data ∧ m ≠ "audio".data) →
      (∀ m ∈ zs, m ≠ "video".data ∧ m ≠ "audio".data) →
      (m1 = "video".data ∧ m2 = "audio".data) ∨ (m1 = "audio".data ∧ m2 = "video".data) →
      dictGet ((xs ++ m1 :: (ys ++ m2 :: zs)).foldl (addMedia nm ds isdef) (d, vc, ac)).1
          (vKey vc) = some (Value.record ⟨nm, ds, isdef, "video"⟩) ∧
      dictGet ((xs ++ m1 :: (ys ++ m2 :: zs)).foldl (addMedia nm ds isdef) (d, vc, ac)).1
          (aKey ac) = some (Value.record ⟨nm, ds, isdef, "audio"⟩) ∧
      vKey vc ≠ aKey ac) := by
  constructor
  · intro cp log l h p hp
    obtain ⟨r, h1, _, h2⟩ := parse_good cp log l h p hp
    exact ⟨r, h1, h2⟩
  · intro nm ds isdef d vc ac xs ys zs m1 m2 hxs hys hzs hm
    have e1 : (xs ++ m1 :: (ys ++ m2 :: zs)).foldl (addMedia nm ds isdef) (d, vc, ac) =
        addMedia nm ds isdef (addMedia nm ds isdef (d, vc, ac) m1) m2 := by
      rw [List.foldl_append, noMedia_foldl nm ds isdef _ xs hxs, List.foldl_cons,
        List.foldl_append, noMedia_foldl nm ds isdef _ ys hys, List.foldl_cons,
        noMedia_foldl nm ds isdef _ zs hzs]
    rw [e1]
    rcases hm with ⟨h1, h2⟩ | ⟨h1, h2⟩ <;> subst h1 <;> subst h2
    · rw [addMedia_video, addMedia_audio]
      refine ⟨?_, ?_, vKey_ne_aKey vc ac⟩
      · show dictGet
          (dictInsert (dictInsert d (vKey vc) (Value.record ⟨nm, ds, isdef, "video"⟩))
            (aKey ac) (Value.record ⟨nm, ds, isdef, "audio"⟩)) (vKey vc) =
          some (Value.record ⟨nm, ds, isdef, "video"⟩)
        rw [dictGet_dictInsert_ne _ _ _ _ (Ne.symm (vKey_ne_aKey vc ac)),
          dictGet_dictInsert_self]
      · show dictGet
          (dictInsert (dictInsert d (vKey vc) (Value.record ⟨nm, ds, isdef, "video"⟩))
            (aKey ac) (Value.record ⟨nm, ds, isdef, "audio"⟩)) (aKey ac) =
          some (Value.record ⟨nm, ds, isdef, "audio"⟩)
        rw [dictGet_dictInsert_self]
    · rw [addMedia_audio, addMedia_video]
      refine ⟨?_, ?_, vKey_ne_aKey vc ac⟩
      · show dictGet
          (dictInsert (dictInsert d (aKey ac) (Value.record ⟨nm, ds, isdef, "audio"⟩))
            (vKey vc) (Value.record ⟨nm, ds, isdef, "video"⟩)) (vKey vc) =
          some (Value.record ⟨nm, ds, isdef, "video"⟩)
        rw [dictGet_dictInsert_self]
      · show dictGet
          (dictInsert (dictInsert d (aKey ac) (Value.record ⟨nm, ds, isdef, "audio"⟩))
            (vKey vc) (Value.record ⟨nm, ds, isdef, "video"⟩)) (aKey ac) =
          some (Value.record ⟨nm, ds, isdef, "audio"⟩)
        rw [dictGet_dictInsert_ne _ _ _ _ (vKey_ne_aKey vc ac), dictGet_dictInsert_self]

/-- Witness for C8: a line with media types `video,audio` at fresh counters
`0, 0` produces `v:0` and `a:0` records sharing the name `"Cam"`. -/
theorem C8_spec_counters_witness :
    dictGet ((["video".data, "audio".data]).foldl (addMedia "Cam" "USB" (some true))
        ([], 0, 0)).1 (vKey 0) = some (Value.record ⟨"Cam", "USB", some true, "video"⟩) ∧
    dictGet ((["video".data, "audio".data]).foldl (addMedia "Cam" "USB" (some true))
        ([], 0, 0)).1 (aKey 0) = some (Value.record ⟨"Cam", "USB", some true, "audio"⟩) :=
  ⟨(C8_spec_counters.2 "Cam" "USB" (some true) [] 0 0 [] [] [] "video".data "audio".data
      (fun m hm => absurd hm (List.not_mem_nil m)) (fun m hm => absurd hm (List.not_mem_nil m))
      (fun m hm => absurd hm (List.not_mem_nil m)) (Or.inl ⟨rfl, rfl⟩)).1,
    (C8_spec_counters.2 "Cam" "USB" (some true) [] 0 0 [] [] [] "video".data "audio".data
      (fun m hm => absurd hm (List.not_mem_nil m)) (fun m hm => absurd hm (List.not_mem_nil m))
      (fun m hm => absurd hm (List.not_mem_nil m)) (Or.inl ⟨rfl, rfl⟩)).2.1⟩

/-! Claim C9. -/

/-- Claim C9 counterexample: a device line without the `"*"` marker parses
to a record whose `is_default` is Python `None` (`none`), not the boolean
`False` (`some false`), because the source computes `m[1] == "*" or None`. -/
theorem C9_counterexample :
    parse (cannotPre "sources") log9 = some [("a:0", Value.record rec9)] ∧
    rec9.is_default = none ∧ (none : Option Bool) ≠ some false :=
  ⟨rfl, rfl, by decide⟩

theorem addMedia_prov (nm ds : String) (isdef : Option Bool) (st0 : DevList)
    (st : DevList × Nat × Nat) (mt : List Char)
    (h : ∀ p ∈ st.1, p ∈ st0 ∨ ∀ r, p.2 = Value.record r → r.is_default = isdef) :
    ∀ p ∈ (addMedia nm ds isdef st mt).1,
      p ∈ st0 ∨ ∀ r, p.2 = Value.record r → r.is_default = isdef := by
  intro p hp
  unfold addMedia at hp
  by_cases h1 : mt = "video".data
  · rw [if_pos h1] at hp
    rcases mem_dictInsert _ _ _ _ hp with h2 | h2
    · exact h p h2
    · subst h2
      right
      intro r hr
      injection hr with hr2
      rw [← hr2]
  · rw [if_neg h1] at hp
    by_cases h2 : mt = "audio".data
    · rw [if_pos h2] at hp
      rcases mem_dictInsert _ _ _ _ hp with h3 | h3
      · exact h p h3
      · subst h3
        right
        intro r hr
        injection hr with hr2
        rw [← hr2]
    · rw [if_neg h2] at hp
      exact h p hp

/-- Claim C9 amended: `is_default` is `True` (`some true`) when the device
line carries the `"*"` marker and Python `None` (`none`) otherwise; it is
never the boolean `False`: every record a parsed listing maps to has
`is_default ≠ some false`, and each record added by a line has `is_default`
exactly `m[1] == "*" or None`. -/
theorem C9_amended :
    (∀ (cp log : List Char) (l : DevList), parse cp log = some l →
      ∀ p ∈ l, ∀ r, p.2 = Value.record r → r.is_default ≠ some false) ∧
    (∀ (st : DevList × Nat × Nat) (m : Char × List Char × List Char × List Char),
      ∀ p ∈ (parseLine st m).1, p ∈ st.1 ∨
        ∀ r, p.2 = Value.record r →
          r.is_default = (if m.1 = '*' then some true else none)) := by
  constructor
  · intro cp log l h p hp r hr
    obtain ⟨r2, h1, h2, _⟩ := parse_good cp log l h p hp
    rw [hr] at h1
    injection h1 with h3
    rw [h3]
    exact h2
  · intro st m
    unfold parseLine
    refine foldl_preserve
      (P := fun st2 : DevList × Nat × Nat => ∀ p ∈ st2.1, p ∈ st.1 ∨
        ∀ r, p.2 = Value.record r →
          r.is_default = (if m.1 = '*' then some true else none))
      _ _ ?_ st (fun p hp => Or.inl hp)
    intro st2 x _ hst2
    exact addMedia_prov _ _ _ st.1 st2 x hst2

/-- Witness for the amended C9: the record parsed from the unmarked line in
`log9` has `is_default ≠ some false`. -/
theorem C9_amended_witness : rec9.is_default ≠ some false :=
  C9_amended.1 (cannotPre "sources") log9 [("a:0", Value.record rec9)] rfl
    ("a:0", Value.record rec9) (List.mem_singleton.mpr rfl) rec9 rfl

/-! Claim C10. -/

/-- Claim C10: for a family whose `list` was populated by the capability
text parser and that has no resolve capability, resolving a spec present in
the list returns the device-record mapping itself as the new url — a dict
value, never the device's name string — with the options unchanged. -/
theorem C10_resolve_returns_record (S T : Index) (opts : List (String × Value))
    (f spec : String) (dev : Family) (l : DevList) (cp log : List Char) (v : Value)
    (hf : dictGet opts "f" = some (Value.str f))
    (hS : dictGet S f = some dev) (hT : dictGet T f = some dev)
    (hres : dev.resolve = none) (hlist : dev.list = some l)
    (hparse : parse cp log = some l) (hspec : dictGet l spec = some v) :
    ∃ r : DeviceRecord, v = Value.record r ∧
      resolve_source S (Value.str spec) opts = Except.ok (Value.record r, opts) ∧
      resolve_sink T (Value.str spec) opts = Except.ok (Value.record r, opts) ∧
      ∀ s, v ≠ Value.str s := by
  obtain ⟨r, hr, _, _⟩ := parse_good cp log l hparse (spec, v) (dictGet_mem _ _ _ hspec)
  have hv : v = Value.record r := hr
  refine ⟨r, hv, ?_, ?_, ?_⟩
  · simp [resolve_source, hf, hS, hres, listFallback, hlist, hspec, hv]
  · simp [resolve_sink, hf, hT, hres, listFallback, hlist, hspec, hv]
  · intro s
    rw [hv]
    intro h2
    cases h2

/-- Witness for C10: resolving `a:0` against the family whose list came
from parsing `log9` returns the parsed record dict. -/
theorem C10_resolve_returns_record_witness :
    resolve_source [("avf", dev10)] (Value.str "a:0") [("f", Value.str "avf")] =
      Except.ok (Value.record rec9, [("f", Value.str "avf")]) := by
  obtain ⟨r, hr, h1, h2, h3⟩ := C10_resolve_returns_record
    [("avf", dev10)] [("avf", dev10)] [("f", Value.str "avf")] "avf" "a:0" dev10 l9
    (cannotPre "sources") log9 (Value.record rec9) rfl rfl rfl rfl rfl rfl rfl
  cases hr
  exact h1

/-! Lemmas about the header matcher and span computation, for claim C3. -/

theorem lazySplits_spec (L : List Char) : ∀ (s g r : List Char),
    (g, r) ∈ lazySplits L s → s = g ++ L ++ r ∧ g ≠ [] := by
  intro s
  induction s with
  | nil => intro g r h; cases h
  | cons c rest ih =>
    intro g r h
    simp only [lazySplits] at h
    by_cases hc : c = '\n'
    · rw [if_pos hc] at h; cases h
    · rw [if_neg hc] at h
      rcases List.mem_append.mp h with h1 | h1
      · by_cases hpre : L.isPrefixOf rest
        · rw [if_pos hpre] at h1
          have h2 := List.mem_singleton.mp h1
          rw [Prod.mk.injEq] at h2
          obtain ⟨hg, hr⟩ := h2
          obtain ⟨t, ht⟩ := List.isPrefixOf_iff_prefix.mp hpre
          have hdrop : rest.drop L.length = t := by
            rw [← ht]
            exact List.drop_left L t
          subst hg
          subst hr
          constructor
          · rw [hdrop, ← ht]
            simp
          · simp
        · rw [if_neg hpre] at h1; cases h1
      · obtain ⟨p, hmem, heq⟩ := List.mem_map.mp h1
        obtain ⟨g2, r2⟩ := p
        rw [Prod.mk.injEq] at heq
        obtain ⟨hg, hr⟩ := heq
        subst hg
        subst hr
        obtain ⟨hs, _⟩ := ih g2 r2 hmem
        constructor
        · rw [hs]
          simp
        · simp

theorem headerAt_bounds (pre s g : List Char) (len : Nat)
    (h : headerAt pre s = some (g, len)) : 1 ≤ len ∧ len ≤ s.length := by
  unfold headerAt at h
  by_cases hpre : pre.isPrefixOf s
  · rw [if_pos hpre] at h
    rcases hsp : lazySplits [':', '\n'] (s.drop pre.length) with _ | ⟨p, tail⟩
    · rw [hsp] at h; cases h
    · rw [hsp] at h
      injection h with h2
      rw [Prod.mk.injEq] at h2
      obtain ⟨_, hlen⟩ := h2
      have hm : (p.1, p.2) ∈ lazySplits [':', '\n'] (s.drop pre.length) := by
        rw [hsp]; exact List.mem_cons_self p tail
      obtain ⟨hs2, _⟩ := lazySplits_spec [':', '\n'] (s.drop pre.length) p.1 p.2 hm
      have hlen2 : (s.drop pre.length).length = p.1.length + 2 + p.2.length := by
        rw [hs2]; simp [List.length_append]; omega
      have hsl : pre.length ≤ s.length := by
        obtain ⟨t, ht⟩ := List.isPrefixOf_iff_prefix.mp hpre
        rw [← ht]; simp
      have hdl : (s.drop pre.length).length = s.length - pre.length := by
        simp [List.length_drop]
      subst hlen
      omega
  · rw [if_neg hpre] at h; cases h

theorem chained_mono (l : List (List Char × Nat × Nat)) (lo lo2 hi : Nat)
    (hle : lo2 ≤ lo) (h : Chained lo hi l) : Chained lo2 hi l := by
  cases l with
  | nil => trivial
  | cons m rest =>
    simp only [Chained] at h ⊢
    exact ⟨Nat.le_trans hle h.1, h.2⟩

theorem headerScan_chained (pre : List Char) : ∀ (s : List Char) (k off : Nat),
    Chained (off + k) (off + s.length) (headerScan pre k off s) := by
  intro s
  induction s with
  | nil => intro k off; simp [headerScan, Chained]
  | cons c rest ih =>
    intro k off
    cases k with
    | succ k2 =>
      have h := ih k2 (off + 1)
      have e1 : off + 1 + k2 = off + Nat.succ k2 := by omega
      have e2 : off + 1 + rest.length = off + (c :: rest).length := by
        simp [List.length_cons]; omega
      rw [e1, e2] at h
      exact h
    | zero =>
      rcases hm : headerAt pre (c :: rest) with _ | ⟨g, len⟩
      · rw [show headerScan pre 0 off (c :: rest) = headerScan pre 0 (off + 1) rest from by
          simp [headerScan, hm]]
        have h := ih 0 (off + 1)
        have e2 : off + 1 + rest.length = off + (c :: rest).length := by
          simp [List.length_cons]; omega
        rw [e2] at h
        exact chained_mono _ _ _ _ (by omega) h
      · obtain ⟨hl1, hl2⟩ := headerAt_bounds pre (c :: rest) g len hm
        rw [show headerScan pre 0 off (c :: rest) =
            (g, off, off + len) :: headerScan pre (len - 1) (off + 1) rest from by
          simp [headerScan, hm]]
        simp only [Chained]
        refine ⟨by omega, by omega, by omega, ?_⟩
        have h := ih (len - 1) (off + 1)
        have e1 : off + 1 + (len - 1) = off + len := by omega
        have e2 : off + 1 + rest.length = off + (c :: rest).length := by
          simp [List.length_cons]; omega
        rw [e1, e2] at h
        exact h

theorem fixLoop_length (total : Nat) : ∀ ms : List (List Char × Nat × Nat),
    (fixLoop total ms).length = ms.length := by
  intro ms
  induction ms with
  | nil => rfl
  | cons m tail ih =>
    cases tail with
    | nil => rfl
    | cons m2 rest =>
      rw [show fixLoop total (m :: m2 :: rest) =
        (m.1, m.2.2, m2.2.1) :: fixLoop total (m2 :: rest) from rfl]
      simp [List.length_cons, ih]

theorem spanStruct_of_chained (total : Nat) : ∀ (ms : List (List Char × Nat × Nat)) (lo : Nat),
    ms ≠ [] → Chained lo total ms → SpanStruct total ms (fixLoop total ms) := by
  intro ms
  induction ms with
  | nil => intro lo h _; exact absurd rfl h
  | cons m tail ih =>
    intro lo _ hch
    simp only [Chained] at hch
    obtain ⟨h1, h2, h3, hrest⟩ := hch
    cases tail with
    | nil => exact ⟨rfl, rfl, rfl, h2, h3⟩
    | cons m2 rest =>
      exact ⟨rfl, rfl, rfl, h2, hrest.1, ih m.2.2 (by simp) hrest⟩

theorem slice_append (t : List Char) (a b c : Nat) (h1 : a ≤ b) (h2 : b ≤ c) :
    slice t a b ++ slice t b c = slice t a c := by
  unfold slice
  have e : c - a = (b - a) + (c - b) := by omega
  rw [e, List.take_add]
  congr 1
  have e2 : a + (b - a) = b := by omega
  rw [List.drop_drop, e2]

theorem hlJoin_fixLoop (t : List Char) : ∀ (ms : List (List Char × Nat × Nat)) (lo : Nat),
    ms ≠ [] → Chained lo t.length ms →
    hlJoin t ms (fixLoop t.length ms) = slice t (headStart ms) t.length := by
  intro ms
  induction ms with
  | nil => intro lo h _; exact absurd rfl h
  | cons m tail ih =>
    intro lo _ hch
    simp only [Chained] at hch
    obtain ⟨h1, h2, h3, hrest⟩ := hch
    cases tail with
    | nil =>
      show slice t m.2.1 m.2.2 ++ (slice t m.2.2 t.length ++ []) = slice t m.2.1 t.length
      rw [List.append_nil]
      exact slice_append t m.2.1 m.2.2 t.length (Nat.le_of_lt h2) h3
    | cons m2 rest =>
      have hih := ih m.2.2 (by simp) hrest
      show slice t m.2.1 m.2.2 ++ (slice t m.2.2 m2.2.1 ++
        hlJoin t (m2 :: rest) (fixLoop t.length (m2 :: rest))) = slice t m.2.1 t.length
      rw [hih]
      show slice t m.2.1 m.2.2 ++ (slice t m.2.2 m2.2.1 ++ slice t m2.2.1 t.length) = _
      simp only [Chained] at hrest
      have hb1 : m.2.2 ≤ m2.2.1 := hrest.1
      have hb2 : m2.2.1 ≤ t.length := Nat.le_trans (Nat.le_of_lt hrest.2.1) hrest.2.2.1
      rw [slice_append t m.2.2 m2.2.1 t.length hb1 hb2,
        slice_append t m.2.1 m.2.2 t.length (Nat.le_of_lt h2) (Nat.le_trans hb1 hb2)]

/-! Claim C3. -/

/-- Claim C3 counterexample: with zero headers (`k = 0`) the span fixup
raises `IndexError` (`src_spans[-1]` on an empty list) instead of producing
zero pairs; and with one header the listing spans do not cover the original
text — the header line itself is in no listing span, so the concatenation of
the listing slices differs from the text. -/
theorem C3_counterexample :
    get_devices "sources" [] = Except.error PyErr.indexError ∧
    get_spans "sources" t3 = Except.ok [("x".data, 29, 33)] ∧
    List.flatten ((fixLoop t3.length (headerScan (headerPre "sources") 0 0 t3)).map
      (fun sp => slice t3 sp.2.1 sp.2.2)) ≠ t3 :=
  ⟨rfl, rfl, by decide⟩

/-- Claim C3 amended: for a probe text with `k ≥ 1` header matches the span
computation succeeds and yields exactly `k` `(aliasCsv, listing)` pairs; the
listing spans are non-overlapping and ordered, listing `i` running from
header `i`'s end to header `i+1`'s start (end of text for the last), so that
headers and listings interleaved tile the text exactly from the first
header's start to the end; with `k = 0` the parser raises `IndexError`. -/
theorem C3_amended (dt : String) (t : List Char)
    (hne : headerScan (headerPre dt) 0 0 t ≠ []) :
    get_spans dt t = Except.ok (fixLoop t.length (headerScan (headerPre dt) 0 0 t)) ∧
    (fixLoop t.length (headerScan (headerPre dt) 0 0 t)).length =
      (headerScan (headerPre dt) 0 0 t).length ∧
    (∃ ds, get_devices dt t = Except.ok ds ∧
      ds.length = (headerScan (headerPre dt) 0 0 t).length) ∧
    SpanStruct t.length (headerScan (headerPre dt) 0 0 t)
      (fixLoop t.length (headerScan (headerPre dt) 0 0 t)) ∧
    hlJoin t (headerScan (headerPre dt) 0 0 t)
      (fixLoop t.length (headerScan (headerPre dt) 0 0 t)) =
      slice t (headStart (headerScan (headerPre dt) 0 0 t)) t.length := by
  have hch0 := headerScan_chained (headerPre dt) t 0 0
  have hch : Chained 0 t.length (headerScan (headerPre dt) 0 0 t) := by
    have e1 : (0 : Nat) + 0 = 0 := rfl
    have e2 : (0 : Nat) + t.length = t.length := by omega
    rw [e1, e2] at hch0
    exact hch0
  have hspans : get_spans dt t =
      Except.ok (fixLoop t.length (headerScan (headerPre dt) 0 0 t)) := by
    unfold get_spans fixSpans
    cases hms : headerScan (headerPre dt) 0 0 t with
    | nil => exact absurd hms hne
    | cons m tail => rfl
  refine ⟨hspans, fixLoop_length t.length _, ?_,
    spanStruct_of_chained t.length _ 0 hne hch, hlJoin_fixLoop t _ 0 hne hch⟩
  refine ⟨(fixLoop t.length (headerScan (headerPre dt) 0 0 t)).map
    (fun sp => (sp.1, parse (cannotPre dt) (slice t sp.2.1 sp.2.2))), ?_, ?_⟩
  · unfold get_devices
    rw [hspans]
  · rw [List.length_map, fixLoop_length]

/-- Witness for the amended C3: the one-header text `t3` yields exactly one
fixed span, and the interleaved tiling holds for it. -/
theorem C3_amended_witness :
    get_spans "sources" t3 =
      Except.ok (fixLoop t3.length (headerScan (headerPre "sources") 0 0 t3)) ∧
    hlJoin t3 (headerScan (headerPre "sources") 0 0 t3)
      (fixLoop t3.length (headerScan (headerPre "sources") 0 0 t3)) =
      slice t3 (headStart (headerScan (headerPre "sources") 0 0 t3)) t3.length :=
  ⟨(C3_amended "sources" t3 (by decide)).1,
    (C3_amended "sources" t3 (by decide)).2.2.2.2⟩

end FFDev
